import Mathlib

/-!
Verification of the document-analysis pipeline of `src/app.py`
(`highthon11th/validation-server`).

The Python source is shallowly embedded over `List Char`:
pure helpers (`is_image_file`, `parse_openai_response`, ...) become Lean
functions; the external effects (pdf2image rasterization, the OpenAI
Files/Responses API, PIL image verification) are parameters gathered in an
`Env` record, and the per-request control flow of the HTTP handler
`analyze_house` becomes a function into `Except HErr Verdict` where `HErr`
models a raised `HTTPException`.
-/

/-- Characters of a Python `str`, modelled as a list of Lean `Char`s. -/
abbrev Chars := List Char

/-- `begins pat s` is true when `s` starts with `pat`. -/
def begins : Chars → Chars → Bool
  | [], _ => true
  | _ :: _, [] => false
  | p :: ps, c :: cs => decide (p = c) && begins ps cs

/-- `endsWithChars suf s` models Python `s.endswith(suf)`. -/
def endsWithChars (suf s : Chars) : Bool :=
  begins suf (s.drop (s.length - suf.length))

/-- `containsSub pat s` is true when `pat` occurs as a contiguous substring of `s`. -/
def containsSub (pat : Chars) : Chars → Bool
  | [] => begins pat []
  | c :: cs => begins pat (c :: cs) || containsSub pat cs

/-- Python `str.lower`, ASCII case folding (all text in play is ASCII or Korean,
which `lower` leaves unchanged). -/
def lowerChars (s : Chars) : Chars := s.map Char.toLower

/-- The opening brace character, `\x7b`. -/
def bOpen : Char := Char.ofNat 123

/-- The closing brace character, `\x7d`. -/
def bClose : Char := Char.ofNat 125

/-- Whitespace recognized by Python's `re` module `\s` class and by
`str.strip` (ASCII part): space, tab, newline, carriage return,
vertical tab, form feed. -/
def reWs (c : Char) : Bool :=
  decide (c = ' ') || decide (c = '\t') || decide (c = '\n') || decide (c = '\r')
    || decide (c = Char.ofNat 11) || decide (c = Char.ofNat 12)

/-- Drop leading regex/`strip` whitespace. -/
def skipReWs : Chars → Chars
  | [] => []
  | c :: cs => if reWs c then skipReWs cs else c :: cs

/-- Python `str.strip()` (ASCII whitespace). -/
def pyStrip (s : Chars) : Chars :=
  (((s.dropWhile reWs).reverse).dropWhile reWs).reverse

/-- `app.py:169-172`: the image filename extensions. -/
def imageExts : List Chars :=
  [".jpg".toList, ".jpeg".toList, ".png".toList, ".bmp".toList,
   ".webp".toList, ".gif".toList]

/-- `app.py:169-172` `is_image_file`: any of the image extensions matches
the lower-cased filename. -/
def is_image_file (filename : Chars) : Bool :=
  imageExts.any (fun ext => endsWithChars ext (lowerChars filename))

/-- `app.py:174-176` `is_pdf_file`. -/
def is_pdf_file (filename : Chars) : Bool :=
  endsWithChars ".pdf".toList (lowerChars filename)

/-! ## The JSON value model (`json.loads`)

A recursive-descent parser over `Chars` modelling CPython's `json.loads`
on the fragment exercised by the program: objects, arrays, strings with the
standard escapes, integers, floats (kept as their lexeme — no claim depends
on float arithmetic), `true`/`false`/`null`.  Python dict semantics (later
duplicate key wins, insertion position kept) are modelled by `objInsert`.
`NaN`/`Infinity` literals and `\u` surrogate pairing are not modelled; no
claim's input uses them. -/

/-- A parsed JSON value. Python floats are represented by their source
lexeme, which is enough to decide syntactic validity. -/
inductive Json where
  | null : Json
  | bool (b : Bool) : Json
  | num (n : Int) : Json
  | float (lexeme : Chars) : Json
  | str (s : Chars) : Json
  | arr (elems : List Json) : Json
  | obj (entries : List (Chars × Json)) : Json

instance : Inhabited Json := ⟨Json.null⟩

/-- The entry list of a Python dict produced by `json.loads`. -/
abbrev Jdict := List (Chars × Json)

/-- `k in d` on a Python dict. -/
def containsKey (d : Jdict) (k : Chars) : Bool :=
  d.any (fun kv => decide (kv.1 = k))

/-- `d[k]` on a Python dict (first entry; entries are kept unique by
`objInsert`). -/
def jlookup : Jdict → Chars → Option Json
  | [], _ => none
  | kv :: rest, k => if kv.1 = k then some kv.2 else jlookup rest k

/-- `d[k] = v` during parsing: replace in place when the key exists
(Python dicts keep the original position), else append. -/
def objInsert (d : Jdict) (k : Chars) (v : Json) : Jdict :=
  if containsKey d k then
    d.map (fun kv => if kv.1 = k then (k, v) else kv)
  else d ++ [(k, v)]

/-- JSON inter-token whitespace (CPython `json` skips exactly these four). -/
def jWs (c : Char) : Bool :=
  decide (c = ' ') || decide (c = '\t') || decide (c = '\n') || decide (c = '\r')

/-- Drop leading JSON whitespace. -/
def skipJWs : Chars → Chars
  | [] => []
  | c :: cs => if jWs c then skipJWs cs else c :: cs

/-- Hexadecimal digit value, for `\u` escapes. -/
def hexVal (c : Char) : Option Nat :=
  if decide ('0' ≤ c) && decide (c ≤ '9') then some (c.toNat - 48)
  else if decide ('a' ≤ c) && decide (c ≤ 'f') then some (c.toNat - 87)
  else if decide ('A' ≤ c) && decide (c ≤ 'F') then some (c.toNat - 55)
  else none

/-- Decimal digit test. -/
def isDig (c : Char) : Bool := decide ('0' ≤ c) && decide (c ≤ '9')

/-- Leading run of decimal digits. -/
def takeDigs : Chars → (Chars × Chars)
  | [] => ([], [])
  | c :: cs =>
    if isDig c then
      let (ds, rest) := takeDigs cs
      (c :: ds, rest)
    else ([], c :: cs)

/-- Numeric value of a digit string. -/
def digsVal (ds : Chars) : Nat :=
  ds.foldl (fun acc c => acc * 10 + (c.toNat - 48)) 0

/-- Body of a JSON string literal after the opening quote: returns the decoded
content and the rest after the closing quote. Strict mode: unescaped control
characters are rejected. -/
def parseJString : Nat → Chars → Option (Chars × Chars)
  | 0, _ => none
  | _ + 1, [] => none
  | fuel + 1, c :: cs =>
    if c = '"' then some ([], cs)
    else if c = '\\' then
      match cs with
      | [] => none
      | e :: cs2 =>
        let cont := fun (ch : Char) (rest : Chars) =>
          (parseJString fuel rest).map (fun p => (ch :: p.1, p.2))
        if e = '"' then cont '"' cs2
        else if e = '\\' then cont '\\' cs2
        else if e = '/' then cont '/' cs2
        else if e = 'b' then cont (Char.ofNat 8) cs2
        else if e = 'f' then cont (Char.ofNat 12) cs2
        else if e = 'n' then cont '\n' cs2
        else if e = 'r' then cont '\r' cs2
        else if e = 't' then cont '\t' cs2
        else if e = 'u' then
          match cs2 with
          | h1 :: h2 :: h3 :: h4 :: cs3 =>
            match hexVal h1, hexVal h2, hexVal h3, hexVal h4 with
            | some a, some b, some c2, some d =>
              cont (Char.ofNat (((a * 16 + b) * 16 + c2) * 16 + d)) cs3
            | _, _, _, _ => none
          | _ => none
        else none
    else if c.toNat < 32 then none
    else (parseJString fuel cs).map (fun p => (c :: p.1, p.2))

/-- A JSON number token (`-?(0|[1-9]\d*)(\.\d+)?([eE][+-]?\d+)?`); integers
yield `Json.num`, anything with a fraction or exponent yields `Json.float`
carrying the lexeme. -/
def parseNumber (s : Chars) : Option (Json × Chars) :=
  let signed : Bool × Chars :=
    match s with
    | '-' :: r => (true, r)
    | _ => (false, s)
  match signed.2 with
  | [] => none
  | c :: r =>
    if isDig c then
      let intPart : Chars × Chars :=
        if c = '0' then ([c], r)
        else
          let (ds, rest) := takeDigs r
          (c :: ds, rest)
      let ds := intPart.1
      let afterInt := intPart.2
      let fracPart : Option (Chars × Chars) :=
        match afterInt with
        | '.' :: r2 =>
          let (fds, rest2) := takeDigs r2
          if fds = [] then none else some ('.' :: fds, rest2)
        | _ => some ([], afterInt)
      match fracPart with
      | none => none
      | some (frac, afterFrac) =>
        let expPart : Option (Chars × Chars) :=
          match afterFrac with
          | e :: r3 =>
            if e = 'e' || e = 'E' then
              let signExp : Chars × Chars :=
                match r3 with
                | sc :: r4 => if sc = '+' || sc = '-' then ([sc], r4) else ([], r3)
                | [] => ([], r3)
              let (eds, rest4) := takeDigs signExp.2
              if eds = [] then none else some (e :: signExp.1 ++ eds, rest4)
            else some ([], afterFrac)
          | [] => some ([], afterFrac)
        match expPart with
        | none => none
        | some (ex, rest) =>
          if frac = [] && ex = [] then
            let v : Int := Int.ofNat (digsVal ds)
            some (Json.num (if signed.1 then -v else v), rest)
          else
            some (Json.float ((if signed.1 then ['-'] else []) ++ ds ++ frac ++ ex), rest)
    else none

mutual

/-- One JSON value at the head of the input (fuel-indexed; the caller passes
`length + 1`, and every recursive call consumes at least one character). -/
def parseVal : Nat → Chars → Option (Json × Chars)
  | 0, _ => none
  | fuel + 1, s =>
    match s with
    | [] => none
    | c :: cs =>
      if c = '"' then
        (parseJString fuel cs).map (fun p => (Json.str p.1, p.2))
      else if c = bOpen then parseObjRest fuel (skipJWs cs) [] true
      else if c = '[' then parseArrRest fuel (skipJWs cs) [] true
      else if begins "true".toList s then some (Json.bool true, s.drop 4)
      else if begins "false".toList s then some (Json.bool false, s.drop 5)
      else if begins "null".toList s then some (Json.null, s.drop 4)
      else if c = '-' || isDig c then parseNumber s
      else none

/-- Members of an object after `\x7b` (whitespace already skipped); `allowEnd`
is true only before the first member, so `\x7b,` and trailing commas fail as in
CPython. -/
def parseObjRest : Nat → Chars → Jdict → Bool → Option (Json × Chars)
  | 0, _, _, _ => none
  | fuel + 1, s, acc, allowEnd =>
    match s with
    | [] => none
    | c :: cs =>
      if c = bClose && allowEnd then some (Json.obj acc, cs)
      else if c = '"' then
        match parseJString fuel cs with
        | none => none
        | some (k, r1) =>
          match skipJWs r1 with
          | ':' :: r2 =>
            match parseVal fuel (skipJWs r2) with
            | none => none
            | some (v, r3) =>
              let acc2 := objInsert acc k v
              match skipJWs r3 with
              | ',' :: r4 => parseObjRest fuel (skipJWs r4) acc2 false
              | cc :: r4 => if cc = bClose then some (Json.obj acc2, r4) else none
              | [] => none
          | _ => none
      else none

/-- Elements of an array after `[` (whitespace already skipped). -/
def parseArrRest : Nat → Chars → List Json → Bool → Option (Json × Chars)
  | 0, _, _, _ => none
  | fuel + 1, s, acc, allowEnd =>
    match s with
    | [] => none
    | c :: cs =>
      if c = ']' && allowEnd then some (Json.arr acc.reverse, cs)
      else
        match parseVal fuel (c :: cs) with
        | none => none
        | some (v, r) =>
          match skipJWs r with
          | ',' :: r2 => parseArrRest fuel (skipJWs r2) (v :: acc) false
          | cc :: r2 => if cc = ']' then some (Json.arr (v :: acc).reverse, r2) else none
          | [] => none

end

/-- `json.loads`: a single value surrounded by optional whitespace; trailing
data is an error. -/
def jsonLoads (s : Chars) : Option Json :=
  match parseVal (s.length + 1) (skipJWs s) with
  | some (v, rest) =>
    match skipJWs rest with
    | [] => some v
    | _ => none
  | none => none

/-! ## Response extraction (`parse_openai_response`, `app.py:387-428`)

The two `re.search` patterns are embedded with Python's leftmost-match
semantics:
- strategy 1 matches the pattern made of three backticks, `json`, optional
  whitespace, a lazily-matched brace-delimited group, optional whitespace and
  three closing backticks (`re.DOTALL`, so the group may span lines);
- strategy 2 matches a brace-delimited span with no inner braces (the
  character class excludes both braces) that contains the literal quoted key
  `"excessive_loan"`. -/

/-- The literal `"excessive_loan"` (with its quotes) required inside a
strategy-2 match. -/
def excKey : Chars := '"' :: ("excessive_loan".toList ++ ['"'])

/-- The three-backtick fence marker. -/
def fenceMark : Chars := "```".toList

/-- The opening marker of a fenced json block. -/
def fenceJson : Chars := "```json".toList

/-- Scan for the lazily-nearest closing brace of a fenced block: the first
`\x7d` that is followed by optional whitespace and a closing fence. `acc`
holds the group content seen so far, reversed. -/
def fencedBody : Chars → Chars → Option Chars
  | [], _ => none
  | c :: rest, acc =>
    if c = bClose && begins fenceMark (skipReWs rest) then
      some (bOpen :: (acc.reverse ++ [bClose]))
    else fencedBody rest (c :: acc)

/-- The fenced-block pattern anchored at the head of `s`. -/
def fencedHere (s : Chars) : Option Chars :=
  if begins fenceJson s then
    match skipReWs (s.drop 7) with
    | c :: rest => if c = bOpen then fencedBody rest [] else none
    | [] => none
  else none

/-- `re.search` of the fenced-block pattern: leftmost successful start. -/
def fencedSearch : Chars → Option Chars
  | [] => none
  | c :: cs =>
    match fencedHere (c :: cs) with
    | some r => some r
    | none => fencedSearch cs

/-- Scan the span after an opening brace: succeeds at the first following
brace when it is a `\x7d` and the accumulated brace-free content contains
the quoted key. -/
def strat2Body : Chars → Chars → Option Chars
  | [], _ => none
  | c :: rest, acc =>
    if c = bOpen then none
    else if c = bClose then
      if containsSub excKey acc.reverse then
        some (bOpen :: (acc.reverse ++ [bClose]))
      else none
    else strat2Body rest (c :: acc)

/-- The inline-object pattern anchored at the head of `s`. -/
def strat2Here (s : Chars) : Option Chars :=
  match s with
  | c :: rest => if c = bOpen then strat2Body rest [] else none
  | [] => none

/-- `re.search` of the inline-object pattern: leftmost successful start. -/
def strat2Search : Chars → Option Chars
  | [] => none
  | c :: cs =>
    match strat2Here (c :: cs) with
    | some r => some r
    | none => strat2Search cs

/-- `app.py:393-407`: the string handed to `json.loads` — the fenced group if
that pattern matched, else the inline-object match, else the whole stripped
text. -/
def codeCandidate (t : Chars) : Chars :=
  match fencedSearch t with
  | some s => s
  | none =>
    match strat2Search t with
    | some s => s
    | none => pyStrip t

/-- `app.py:413-414`: the six required keys, in source order. -/
def requiredKeys : List Chars :=
  ["excessive_loan".toList, "rights_restriction".toList, "trust_property".toList,
   "residential_use".toList, "tax_delinquency".toList, "owner_verification".toList]

/-- A string value is truthy when its lower-casing is `true`, `1` or `yes`
(`app.py:420`). -/
def truthyToken (s : Chars) : Bool :=
  let l := lowerChars s
  decide (l = "true".toList) || decide (l = "1".toList) || decide (l = "yes".toList)

/-- `result[key] = ...` on a dict whose key is already present: replace the
value in place. -/
def objSet (d : Jdict) (k : Chars) (v : Json) : Jdict :=
  d.map (fun kv => if kv.1 = k then (k, v) else kv)

/-- One iteration of the normalization loop (`app.py:418-420`): when the value
at `k` `isinstance(..., str)`, replace it by the boolean of the truthy test;
all other values are untouched. -/
def normStep (acc : Jdict) (k : Chars) : Jdict :=
  match jlookup acc k with
  | some (Json.str s) => objSet acc k (Json.bool (truthyToken s))
  | _ => acc

/-- The `for key in required_keys` normalization loop of `app.py:418-420`. -/
def normalizeKeys (d : Jdict) : Jdict :=
  requiredKeys.foldl normStep d

/-- `app.py:412-424`: the parsed value must be a dict containing all six
required keys (anything else raises or fails the `all` check and yields
`None`); string values at required keys are then normalized. -/
def validateNormalize : Json → Option Jdict
  | Json.obj d =>
    if requiredKeys.all (fun k => containsKey d k) then some (normalizeKeys d)
    else none
  | _ => none

/-- `app.py:387-428` `parse_openai_response`: pick the candidate string, parse
it, validate and normalize; any failure (no parse, missing key, non-dict)
returns `None` through the surrounding `except`. -/
def parse_openai_response (t : Chars) : Option Jdict :=
  (jsonLoads (codeCandidate t)).bind validateNormalize

/-- `app.py:430-439` `get_default_analysis_result`: the fallback verdict as a
dict. -/
def get_default_analysis_result : Jdict :=
  [("excessive_loan".toList, Json.bool false),
   ("rights_restriction".toList, Json.bool false),
   ("trust_property".toList, Json.bool false),
   ("residential_use".toList, Json.bool true),
   ("tax_delinquency".toList, Json.bool false),
   ("owner_verification".toList, Json.bool true)]

/-! ## The bounded invocation and the endpoint (`app.py:264-504`)

External effects are parameters: how long the OpenAI responses call takes and
what it does is a `CallBehavior` chosen by the environment as a function of
the submitted request, `future.result(timeout=90)` maps it to an outcome. -/

/-- What the external inference call would do: return text after some wall
clock time, raise after some time, or never finish. -/
inductive CallBehavior where
  | returns (secs : Nat) (text : Chars)
  | raises (secs : Nat) (msg : Chars)
  | hangs
deriving DecidableEq

/-- Outcome of the bounded wait. -/
inductive InferenceOutcome where
  | success (text : Chars)
  | upstreamFailure (msg : Chars)
  | timedOut
deriving DecidableEq

/-- `future.result(timeout=t)`: the call's own completion (return or raise)
is delivered when it happens within the deadline; otherwise `TimeoutError`. -/
def futureResult (timeoutSecs : Nat) : CallBehavior → InferenceOutcome
  | .returns s t => if s ≤ timeoutSecs then .success t else .timedOut
  | .raises s m => if s ≤ timeoutSecs then .upstreamFailure m else .timedOut
  | .hangs => .timedOut

/-- One entry of `file_contents` (`app.py:452-489`). -/
inductive FileContent where
  | fileId (filename : Chars) (id : Chars)
  | pdfFileIds (filename : Chars) (ids : List Chars)
deriving DecidableEq

/-- One element of the `input` content list of the inference request. -/
inductive InputItem where
  | inputText (s : Chars)
  | inputImage (fileId : Chars)
deriving DecidableEq

/-- The fixed instruction block (`app.py:271-326`). Its contents are opaque
to every claim; the constant stands for the literal Korean rubric string. -/
def instructionText : Chars :=
  "(six-criteria rubric and JSON output contract, app.py lines 271-326)".toList

/-- The asset references contributed by one `file_contents` entry. -/
def contentRefs : FileContent → List Chars
  | .fileId _ i => [i]
  | .pdfFileIds _ ids => ids

/-- `app.py:268-343`: the assembled request content — the instruction text
followed by one `input_image` item per file id, documents in order, a PDF's
pages in order. -/
def inputContent (fcs : List FileContent) : List InputItem :=
  InputItem.inputText instructionText ::
    (fcs.flatMap (fun fc => (contentRefs fc).map InputItem.inputImage))

/-- `app.py:264-385` `analyze_files_with_openai`: submit once, wait at most
90 seconds; on a response, parse it and substitute the default when parsing
yields `None` (or a falsy, i.e. empty, dict); on `TimeoutError` or any other
exception, return the default. The function never raises. -/
def analyze_files_with_openai (call : List InputItem → CallBehavior)
    (fcs : List FileContent) : Jdict :=
  match futureResult 90 (call (inputContent fcs)) with
  | .success t =>
    match parse_openai_response t with
    | some r =>
      match r with
      | [] => get_default_analysis_result
      | _ => r
    | none => get_default_analysis_result
  | .timedOut => get_default_analysis_result
  | .upstreamFailure _ => get_default_analysis_result

/-- A raised `HTTPException`: status code and detail message. -/
structure HErr where
  status : Nat
  detail : Chars
deriving DecidableEq

/-- Python `str(HTTPException)`: `"<code>: <detail>"`. -/
def errToStr (e : HErr) : Chars :=
  (toString e.status).toList ++ ": ".toList ++ e.detail

/-- An uploaded multipart file: optional filename and raw bytes (bytes are
modelled as `Chars`). -/
structure UploadFile where
  filename : Option Chars
  bytes : Chars
deriving DecidableEq

/-- The filename as the string Python would see (`None` never reaches the
helpers below because `analyze_house` rejects it first). -/
def filenameStr (f : UploadFile) : Chars := f.filename.getD []

/-- The external collaborators of one request: pdf2image rasterization
(bytes, dpi, format), the OpenAI file-store registration (name, bytes),
PIL image verification, and the inference call. -/
structure Env where
  rasterize : Chars → Nat → Chars → Except Chars (List Chars)
  register : Chars → Chars → Except Chars Chars
  validImage : Chars → Bool
  call : List InputItem → CallBehavior

/-- `app.py:203-231` `upload_file_to_openai`: verify image bytes when the
filename classifies as an image, then register; every failure is re-raised as
a 400 with the prefix of the source f-string. -/
def upload_file_to_openai (env : Env) (f : UploadFile) : Except HErr Chars :=
  if is_image_file (filenameStr f) && !(env.validImage f.bytes) then
    .error ⟨400, "파일 업로드 실패: 유효하지 않은 이미지 파일입니다.".toList⟩
  else
    match env.register (filenameStr f) f.bytes with
    | .ok i => .ok i
    | .error m => .error ⟨400, "파일 업로드 실패: ".toList ++ m⟩

/-- Page filename used at upload: `<pdfname>_page_<i>.png` (`app.py:250`). -/
def pageName (fn : Chars) (i : Nat) : Chars :=
  fn ++ "_page_".toList ++ (toString i).toList ++ ".png".toList

/-- The registration loop of `convert_pdf_to_file_ids`: pages in order,
numbered from `i+1`; the first failing registration aborts. -/
def uploadPages (env : Env) (fn : Chars) : List Chars → Nat → Except Chars (List Chars)
  | [], _ => .ok []
  | p :: ps, i =>
    match env.register (pageName fn (i + 1)) p with
    | .error m => .error m
    | .ok id1 =>
      match uploadPages env fn ps (i + 1) with
      | .error m => .error m
      | .ok ids => .ok (id1 :: ids)

/-- `app.py:233-262` `convert_pdf_to_file_ids`: rasterize at dpi 200, format
PNG, then upload each page; any exception in the body becomes a 400 with the
conversion-failure prefix. -/
def convert_pdf_to_file_ids (env : Env) (f : UploadFile) : Except HErr (List Chars) :=
  match env.rasterize f.bytes 200 ("PNG".toList) with
  | .error m => .error ⟨400, "PDF 이미지 변환 실패: ".toList ++ m⟩
  | .ok pages =>
    match uploadPages env (filenameStr f) pages 0 with
    | .error m => .error ⟨400, "PDF 이미지 변환 실패: ".toList ++ m⟩
    | .ok ids => .ok ids

/-- The per-file step of the `analyze_house` loop (`app.py:454-489`):
reject falsy filenames, classify pdf before image, wrap per-file failures
(the inner exception printed via `str`) and reject unsupported extensions. -/
def processOne (env : Env) (f : UploadFile) : Except HErr FileContent :=
  match f.filename with
  | none => .error ⟨400, "파일명이 없는 파일이 있습니다.".toList⟩
  | some fn =>
    if fn = [] then .error ⟨400, "파일명이 없는 파일이 있습니다.".toList⟩
    else if is_pdf_file fn then
      match convert_pdf_to_file_ids env f with
      | .ok ids => .ok (.pdfFileIds fn ids)
      | .error e =>
        .error ⟨400, "PDF 처리 실패 (".toList ++ fn ++ "): ".toList ++ errToStr e⟩
    else if is_image_file fn then
      match upload_file_to_openai env f with
      | .ok i => .ok (.fileId fn i)
      | .error e =>
        .error ⟨400, "이미지 처리 실패 (".toList ++ fn ++ "): ".toList ++ errToStr e⟩
    else
      .error ⟨400, "지원되지 않는 파일 형식입니다: ".toList ++ fn
        ++ ". PDF 또는 이미지 파일만 업로드 가능합니다.".toList⟩

/-- The `for file in files` loop: first failure aborts, successes accumulate
in order. -/
def processFiles (env : Env) : List UploadFile → Except HErr (List FileContent)
  | [] => .ok []
  | f :: fs =>
    match processOne env f with
    | .error e => .error e
    | .ok fc =>
      match processFiles env fs with
      | .error e => .error e
      | .ok fcs => .ok (fc :: fcs)

/-- Modelled from pydantic's documented boolean coercion (the `AnalysisResponse`
model is library code, not part of `src/`): booleans pass, the integers 0 and 1
coerce, the documented truthy/falsy strings coerce, everything else (null,
other numbers, arrays, objects; float literals are not modelled and appear in
no claim) is a validation error. -/
def pydantic_bool : Json → Option Bool
  | .bool b => some b
  | .num n => if n = 0 then some false else if n = 1 then some true else none
  | .str s =>
    let l := lowerChars s
    if ["1", "on", "t", "true", "y", "yes"].any (fun x => decide (x.toList = l)) then
      some true
    else if ["0", "off", "f", "false", "n", "no"].any (fun x => decide (x.toList = l)) then
      some false
    else none
  | _ => none

/-- The response model `AnalysisResponse` (`app.py:25-31`): six boolean
fields. -/
structure Verdict where
  excessive_loan : Bool
  rights_restriction : Bool
  trust_property : Bool
  residential_use : Bool
  tax_delinquency : Bool
  owner_verification : Bool
deriving DecidableEq

/-- `AnalysisResponse(**analysis_result)`: each required field is looked up
and coerced; a missing field or an uncoercible value is a pydantic
`ValidationError` (`none`); extra keys are ignored. -/
def analysisResponse (d : Jdict) : Option Verdict :=
  match (jlookup d ("excessive_loan".toList)).bind pydantic_bool,
      (jlookup d ("rights_restriction".toList)).bind pydantic_bool,
      (jlookup d ("trust_property".toList)).bind pydantic_bool,
      (jlookup d ("residential_use".toList)).bind pydantic_bool,
      (jlookup d ("tax_delinquency".toList)).bind pydantic_bool,
      (jlookup d ("owner_verification".toList)).bind pydantic_bool with
  | some a, some b, some c, some d4, some e, some f => some ⟨a, b, c, d4, e, f⟩
  | _, _, _, _, _, _ => none

/-- The Fallback Verdict constant of the spec. -/
def defaultVerdict : Verdict := ⟨false, false, false, true, false, true⟩

/-- `app.py:441-504` `analyze_house`: reject an empty upload, process the
files (first failure aborts with its `HTTPException`), run the analysis and
build the response model; a `ValidationError` there is caught by the generic
handler and surfaced as a 500. -/
def analyze_house (env : Env) (files : List UploadFile) : Except HErr Verdict :=
  match files with
  | [] => .error ⟨400, "최소 1개 이상의 파일이 필요합니다.".toList⟩
  | _ :: _ =>
    match processFiles env files with
    | .error e => .error e
    | .ok fcs =>
      match fcs with
      | [] => .error ⟨400, "처리 가능한 파일이 없습니다.".toList⟩
      | _ :: _ =>
        match analysisResponse (analyze_files_with_openai env.call fcs) with
        | some v => .ok v
        | none => .error ⟨500, "분석 중 오류 발생: validation error".toList⟩

/-! ## Derived and spec-side definitions used by the claims -/

/-- The object the extractor actually proceeds with: the parse of the single
selected candidate string. -/
def codeSelectedObject (t : Chars) : Option Json :=
  jsonLoads (codeCandidate t)

/-- Modelled from the spec's words (§4.6): run the ordered strategy chain
"taking the first that yields a syntactically valid object". Compared with
`codeSelectedObject` for the refinement claim C2. -/
def specFirstValidObject (t : Chars) : Option Json :=
  match (match fencedSearch t with | some s => jsonLoads s | none => none) with
  | some v => some v
  | none =>
    match (match strat2Search t with | some s => jsonLoads s | none => none) with
    | some v => some v
    | none => jsonLoads (pyStrip t)

/-- The effect of one normalization pass on a looked-up value. -/
def normLook : Option Json → Option Json
  | some (Json.str s) => some (Json.bool (truthyToken s))
  | x => x

/-- The normalized form of one value: strings go through the truthy test,
everything else is untouched. -/
def normValue : Json → Json
  | Json.str s => Json.bool (truthyToken s)
  | v => v

/-- Not a brace character (the character class of the strategy-2 pattern). -/
def notBrace (c : Char) : Bool :=
  !(decide (c = bOpen) || decide (c = bClose))

/-- A file the Intake Classifier must reject: missing or empty filename, or an
extension that is neither pdf nor image. -/
def badFile (f : UploadFile) : Prop :=
  f.filename = none ∨ f.filename = some []
    ∨ ∃ fn, f.filename = some fn ∧ is_pdf_file fn = false ∧ is_image_file fn = false

/-- The id a successful registration returns (meaningful on success paths). -/
def regOk (env : Env) (n b : Chars) : Chars :=
  match env.register n b with
  | .ok i => i
  | .error _ => []

/-- The file ids of a document's rasterized pages, in page order, page names
numbered from `i + 1`. -/
def expectedPageIds (env : Env) (fn : Chars) : List Chars → Nat → List Chars
  | [], _ => []
  | p :: ps, i => regOk env (pageName fn (i + 1)) p :: expectedPageIds env fn ps (i + 1)

/-- The asset references one document contributes, in order: for a pdf its
pages' ids in page order, for anything else the single registered id. -/
def docVisualRefs (env : Env) (f : UploadFile) : List Chars :=
  if is_pdf_file (filenameStr f) then
    match env.rasterize f.bytes 200 ("PNG".toList) with
    | .ok pages => expectedPageIds env (filenameStr f) pages 0
    | .error _ => []
  else [regOk env (filenameStr f) f.bytes]

/-! ## Concrete inputs for the witnesses and counterexamples -/

/-- C1 witness environment: everything succeeds, the inference call hangs. -/
def env1W : Env :=
  { rasterize := fun _ _ _ => .ok []
    register := fun _ _ => .ok ("id1".toList)
    validImage := fun _ => true
    call := fun _ => .hangs }

/-- C1 witness upload: one valid image. -/
def files1W : List UploadFile := [{ filename := some ("a.jpg".toList), bytes := "IMG".toList }]

/-- C1 witness processed contents. -/
def fcs1W : List FileContent := [.fileId ("a.jpg".toList) ("id1".toList)]

/-- C2 counterexample text: the fenced block matches but its group does not
parse, while a later inline object is valid. -/
def tex2 : Chars :=
  ("```json\n\x7bbad\x7d\n```\n\x7b\"excessive_loan\": 1\x7d").toList

/-- C2 witness text: a well-formed fenced block. -/
def t2W : Chars := ("```json\n\x7b\"a\": 1\x7d\n```".toList)

/-- The fenced group of `t2W`. -/
def fence2W : Chars := ("\x7b\"a\": 1\x7d".toList)

/-- C3 counterexample text: all six keys present, `excessive_loan` is null. -/
def t3 : Chars :=
  ("\x7b\"excessive_loan\": null, \"rights_restriction\": false, \"trust_property\": false, \"residential_use\": true, \"tax_delinquency\": false, \"owner_verification\": true\x7d").toList

/-- C3 witness dict before normalization: one truthy string value. -/
def o3W : Jdict :=
  [("excessive_loan".toList, Json.str ("YES".toList)),
   ("rights_restriction".toList, Json.bool false),
   ("trust_property".toList, Json.bool false),
   ("residential_use".toList, Json.bool true),
   ("tax_delinquency".toList, Json.bool false),
   ("owner_verification".toList, Json.bool true)]

/-- C3 witness dict after normalization. -/
def d3W : Jdict :=
  [("excessive_loan".toList, Json.bool true),
   ("rights_restriction".toList, Json.bool false),
   ("trust_property".toList, Json.bool false),
   ("residential_use".toList, Json.bool true),
   ("tax_delinquency".toList, Json.bool false),
   ("owner_verification".toList, Json.bool true)]

/-- C4 counterexample environment: asset registration fails. -/
def envReg : Env :=
  { rasterize := fun _ _ _ => .ok []
    register := fun _ _ => .error ("boom".toList)
    validImage := fun _ => true
    call := fun _ => .hangs }

/-- C4 concrete image upload. -/
def fImg : UploadFile := { filename := some ("a.jpg".toList), bytes := "IMG".toList }

/-- C4 counterexample environment: registration succeeds, the inference call
fails at the transport level after one second. -/
def envTrans : Env :=
  { rasterize := fun _ _ _ => .ok []
    register := fun _ _ => .ok ("id1".toList)
    validImage := fun _ => true
    call := fun _ => .raises 1 ("conn".toList) }

/-- C4 witness environment: registration fails with a different message. -/
def envReg2 : Env :=
  { rasterize := fun _ _ _ => .ok []
    register := fun _ _ => .error ("netfail".toList)
    validImage := fun _ => true
    call := fun _ => .hangs }

/-- C4 witness upload. -/
def fImg2 : UploadFile := { filename := some ("b.png".toList), bytes := "IMG2".toList }

/-- C4 witness environment for the transport half. -/
def envTrans2 : Env :=
  { rasterize := fun _ _ _ => .ok []
    register := fun _ _ => .ok ("id2".toList)
    validImage := fun _ => true
    call := fun _ => .raises 5 ("reset".toList) }

/-- C5 witness environment: the inference call returns only after 100
seconds. -/
def env5W : Env :=
  { rasterize := fun _ _ _ => .ok []
    register := fun _ _ => .ok ("id1".toList)
    validImage := fun _ => true
    call := fun _ => .returns 100 ("late".toList) }

/-- C5 witness upload. -/
def files5W : List UploadFile := [{ filename := some ("c.gif".toList), bytes := "G".toList }]

/-- C5 witness processed contents. -/
def fcs5W : List FileContent := [.fileId ("c.gif".toList) ("id1".toList)]

/-- C6 witness environment: a two-page pdf rasterization, registration tags
the submitted name. -/
def env6W : Env :=
  { rasterize := fun _ _ _ => .ok ["P1".toList, "P2".toList]
    register := fun n _ => .ok ('r' :: n)
    validImage := fun _ => true
    call := fun _ => .hangs }

/-- C6 witness uploads: one pdf then one image. -/
def files6W : List UploadFile :=
  [{ filename := some ("doc.pdf".toList), bytes := "PDFBYTES".toList },
   { filename := some ("a.jpg".toList), bytes := "IMG".toList }]

/-- C6 witness processed contents (page ids in page order, then the image). -/
def fcs6W : List FileContent :=
  [.pdfFileIds ("doc.pdf".toList)
     ['r' :: pageName ("doc.pdf".toList) 1, 'r' :: pageName ("doc.pdf".toList) 2],
   .fileId ("a.jpg".toList) ('r' :: ("a.jpg".toList))]

/-- C7 witness environment. -/
def env7W : Env :=
  { rasterize := fun _ _ _ => .ok []
    register := fun _ _ => .ok ("id1".toList)
    validImage := fun _ => true
    call := fun _ => .hangs }

/-- C7 witness upload: an unsupported extension. -/
def f7W : UploadFile := { filename := some ("report.docx".toList), bytes := "D".toList }

/-- C7 witness upload list. -/
def files7W : List UploadFile := [f7W]

/-- C8 witness pdf upload. -/
def f8W : UploadFile := { filename := some ("doc.pdf".toList), bytes := "PDFBYTES".toList }

/-- C8 witness pages. -/
def pages8W : List Chars := ["P1".toList, "P2".toList]

/-- C8 witness environment: valid two-page pdf. -/
def env8a : Env :=
  { rasterize := fun _ _ _ => .ok pages8W
    register := fun n _ => .ok ('r' :: n)
    validImage := fun _ => true
    call := fun _ => .hangs }

/-- C8 witness environment: corrupt pdf. -/
def env8b : Env :=
  { rasterize := fun _ _ _ => .error ("corrupt".toList)
    register := fun n _ => .ok ('r' :: n)
    validImage := fun _ => true
    call := fun _ => .hangs }

/-- C9 counterexample response text: all six keys, `owner_verification` is the
number 1 (neither boolean nor string). -/
def t9 : Chars :=
  ("\x7b\"excessive_loan\": false, \"rights_restriction\": false, \"trust_property\": false, \"residential_use\": true, \"tax_delinquency\": false, \"owner_verification\": 1\x7d").toList

/-- C9 counterexample environment: the call succeeds immediately with `t9`. -/
def env9 : Env :=
  { rasterize := fun _ _ _ => .ok []
    register := fun _ _ => .ok ("id1".toList)
    validImage := fun _ => true
    call := fun _ => .returns 1 t9 }

/-- C9 counterexample upload. -/
def files9 : List UploadFile := [{ filename := some ("a.jpg".toList), bytes := "IMG".toList }]

/-- C9 witness response text: `owner_verification` is null. -/
def t9n : Chars :=
  ("\x7b\"excessive_loan\": false, \"rights_restriction\": false, \"trust_property\": false, \"residential_use\": true, \"tax_delinquency\": false, \"owner_verification\": null\x7d").toList

/-- C9 witness environment. -/
def env9n : Env :=
  { rasterize := fun _ _ _ => .ok []
    register := fun _ _ => .ok ("id1".toList)
    validImage := fun _ => true
    call := fun _ => .returns 1 t9n }

/-- C9 witness upload. -/
def files9n : List UploadFile := [{ filename := some ("n.jpg".toList), bytes := "IMG".toList }]

/-- C9 witness processed contents. -/
def fcs9n : List FileContent := [.fileId ("n.jpg".toList) ("id1".toList)]

/-- C9 witness parsed dict (null kept as-is by normalization). -/
def d9W : Jdict :=
  [("excessive_loan".toList, Json.bool false),
   ("rights_restriction".toList, Json.bool false),
   ("trust_property".toList, Json.bool false),
   ("residential_use".toList, Json.bool true),
   ("tax_delinquency".toList, Json.bool false),
   ("owner_verification".toList, Json.null)]

/-- C10 witness text whose only key-containing object has a nested object. -/
def t10 : Chars :=
  ("answer: \x7b\"excessive_loan\": true, \"nested\": \x7b\"a\": 1\x7d\x7d").toList

/-- C10 witness text with a flat inline object, for the match-shape half. -/
def t10m : Chars := ("see \x7b\"excessive_loan\": 1\x7d end").toList

set_option maxRecDepth 100000

set_option maxHeartbeats 2000000

/-! ## Helper lemmas -/

theorem processFiles_cons_ne_nil {env : Env} {f : UploadFile} {fs : List UploadFile}
    {fcs : List FileContent} (h : processFiles env (f :: fs) = .ok fcs) : fcs ≠ [] := by
  unfold processFiles at h
  cases h1 : processOne env f <;> rw [h1] at h
  · exact absurd h (by simp)
  · cases h2 : processFiles env fs <;> rw [h2] at h
    · exact absurd h (by simp)
    · simp only [Except.ok.injEq] at h
      rw [← h]
      exact List.cons_ne_nil _ _

theorem analyze_house_eq (env : Env) (files : List UploadFile) (fcs : List FileContent)
    (hne : files ≠ []) (hp : processFiles env files = .ok fcs) :
    analyze_house env files =
      match analysisResponse (analyze_files_with_openai env.call fcs) with
      | some v => .ok v
      | none => .error ⟨500, "분석 중 오류 발생: validation error".toList⟩ := by
  obtain ⟨f, fs, rfl⟩ := List.exists_cons_of_ne_nil hne
  obtain ⟨g, gs, rfl⟩ := List.exists_cons_of_ne_nil (processFiles_cons_ne_nil hp)
  unfold analyze_house
  rw [hp]

theorem analyze_files_eq_default (call : List InputItem → CallBehavior)
    (fcs : List FileContent)
    (h : futureResult 90 (call (inputContent fcs)) = .timedOut
      ∨ (∃ m, futureResult 90 (call (inputContent fcs)) = .upstreamFailure m)
      ∨ (∃ t, futureResult 90 (call (inputContent fcs)) = .success t
          ∧ parse_openai_response t = none)) :
    analyze_files_with_openai call fcs = get_default_analysis_result := by
  unfold analyze_files_with_openai
  rcases h with h | ⟨m, h⟩ | ⟨t, h, hpar⟩ <;> rw [h]
  simp [hpar]

theorem analysisResponse_default :
    analysisResponse get_default_analysis_result = some defaultVerdict := rfl

/-! ## Claim C1 -/

/-- Claim C1: whenever the bounded invocation times out, the upstream call
fails, or extraction/validation of the response text fails, `analyze_house`
returns exactly the fallback Verdict `⟨false, false, false, true, false,
true⟩` as a successful response — no exception reaches the HTTP caller on
this path. -/
theorem claim1_fallback_verdict (env : Env) (files : List UploadFile)
    (fcs : List FileContent)
    (hne : files ≠ [])
    (hp : processFiles env files = .ok fcs)
    (hbad : futureResult 90 (env.call (inputContent fcs)) = .timedOut
      ∨ (∃ m, futureResult 90 (env.call (inputContent fcs)) = .upstreamFailure m)
      ∨ (∃ t, futureResult 90 (env.call (inputContent fcs)) = .success t
          ∧ parse_openai_response t = none)) :
    analyze_house env files = .ok defaultVerdict := by
  rw [analyze_house_eq env files fcs hne hp,
      analyze_files_eq_default env.call fcs hbad,
      analysisResponse_default]

/-- Witness for C1 at a concrete request whose inference call hangs. -/
theorem claim1_witness : analyze_house env1W files1W = .ok defaultVerdict :=
  claim1_fallback_verdict env1W files1W fcs1W (by decide) (by rfl) (Or.inl rfl)

/-! ## Claim C5 -/

/-- Claim C5: when the external call does not complete within the hard
deadline of 90 seconds, the outcome is `timedOut` (the single submission is
simply abandoned — the model issues no second call), the pipeline returns the
Fallback Verdict and the HTTP call completes successfully. -/
theorem claim5_timeout (env : Env) (files : List UploadFile) (fcs : List FileContent)
    (hne : files ≠ [])
    (hp : processFiles env files = .ok fcs)
    (hret : ∀ s t, env.call (inputContent fcs) = .returns s t → 90 < s)
    (hrai : ∀ s m, env.call (inputContent fcs) = .raises s m → 90 < s) :
    futureResult 90 (env.call (inputContent fcs)) = .timedOut
      ∧ analyze_house env files = .ok defaultVerdict := by
  have hto : futureResult 90 (env.call (inputContent fcs)) = .timedOut := by
    cases hb : env.call (inputContent fcs) with
    | returns s t =>
      have hs := hret s t hb
      simp [futureResult, Nat.not_le_of_lt hs]
    | raises s m =>
      have hs := hrai s m hb
      simp [futureResult, Nat.not_le_of_lt hs]
    | hangs => rfl
  refine ⟨hto, ?_⟩
  rw [analyze_house_eq env files fcs hne hp,
      analyze_files_eq_default env.call fcs (Or.inl hto),
      analysisResponse_default]

/-- Witness for C5 at a concrete request whose inference call returns after
100 seconds. -/
theorem claim5_witness :
    futureResult 90 (env5W.call (inputContent fcs5W)) = .timedOut
      ∧ analyze_house env5W files5W = .ok defaultVerdict :=
  claim5_timeout env5W files5W fcs5W (by decide) (by rfl)
    (fun s t h => by
      simp only [env5W] at h
      cases h
      decide)
    (fun s m h => by simp only [env5W] at h; cases h)

/-! ## Claim C2 -/

/-- Counterexample to C2 as stated: on `tex2` the fenced locator matches a
group that does not parse, so the extractor proceeds with no object at all,
while the first strategy that yields a syntactically valid object is the
inline one. -/
theorem claim2_counterexample :
    codeSelectedObject tex2 ≠ specFirstValidObject tex2
      ∧ codeSelectedObject tex2 = none
      ∧ specFirstValidObject tex2
          = some (Json.obj [("excessive_loan".toList, Json.num 1)]) := by
  have h1 : codeSelectedObject tex2 = none := rfl
  have h2 : specFirstValidObject tex2
      = some (Json.obj [("excessive_loan".toList, Json.num 1)]) := rfl
  refine ⟨?_, h1, h2⟩
  rw [h1, h2]
  exact fun h => Option.noConfusion h

/-- Claim C2 amended: the three strategies are attempted in the stated order,
but selection is by the first *locator* that matches (the whole trimmed text
for strategy 3); only that single candidate is parsed, and when parsing it
fails the extractor fails without attempting the later strategies. -/
theorem claim2_amended (t : Chars) :
    (∀ s, fencedSearch t = some s →
      parse_openai_response t = (jsonLoads s).bind validateNormalize)
    ∧ (fencedSearch t = none → ∀ s, strat2Search t = some s →
      parse_openai_response t = (jsonLoads s).bind validateNormalize)
    ∧ (fencedSearch t = none → strat2Search t = none →
      parse_openai_response t = (jsonLoads (pyStrip t)).bind validateNormalize) := by
  unfold parse_openai_response codeCandidate
  exact ⟨fun s h => by rw [h], fun h1 s h2 => by rw [h1, h2],
    fun h1 h2 => by rw [h1, h2]⟩

/-- Witness for C2's amended statement: on `t2W` the fenced locator matches
`fence2W` and the extraction result is the parse of that group. -/
theorem claim2_witness :
    parse_openai_response t2W = (jsonLoads fence2W).bind validateNormalize :=
  (claim2_amended t2W).1 fence2W rfl

/-! ## Claim C3 -/

/-- Counterexample to C3 as stated: `t3` parses with all six keys but the
null at `excessive_loan` is not normalized to a boolean — the produced object
is not strictly boolean-valued. -/
theorem claim3_counterexample :
    (parse_openai_response t3).bind (fun r => jlookup r ("excessive_loan".toList))
        = some Json.null
      ∧ ∀ b, Json.null ≠ Json.bool b :=
  ⟨rfl, fun _ h => Json.noConfusion h⟩

theorem jlookup_some_contains {d : Jdict} {k : Chars} {v : Json}
    (h : jlookup d k = some v) : containsKey d k = true := by
  induction d with
  | nil => exact absurd h (by simp [jlookup])
  | cons kv rest ih =>
    unfold jlookup at h
    unfold containsKey
    by_cases hk : kv.1 = k
    · simp [hk]
    · rw [if_neg hk] at h
      simp only [List.any_cons, Bool.or_eq_true, decide_eq_true_eq]
      exact Or.inr (ih h)

theorem jlookup_objSet_self {d : Jdict} {k : Chars} (v : Json)
    (h : containsKey d k = true) : jlookup (objSet d k v) k = some v := by
  simp only [objSet]
  induction d with
  | nil => exact absurd h (by simp [containsKey])
  | cons kv rest ih =>
    simp only [containsKey, List.any_cons, Bool.or_eq_true, decide_eq_true_eq] at h
    simp only [List.map]
    unfold jlookup
    by_cases hk : kv.1 = k
    · rw [if_pos hk]
      rw [if_pos rfl]
    · rw [if_neg hk]
      rw [if_neg hk]
      refine ih ?_
      rcases h with h | h
      · exact absurd h hk
      · simpa [containsKey] using h

theorem jlookup_objSet_other {d : Jdict} {k q : Chars} (v : Json) (h : q ≠ k) :
    jlookup (objSet d k v) q = jlookup d q := by
  simp only [objSet]
  induction d with
  | nil => rfl
  | cons kv rest ih =>
    simp only [List.map]
    unfold jlookup
    by_cases hk : kv.1 = k
    · rw [if_pos hk,
          if_neg (show ¬((k, v).1 = q) from fun hc => h hc.symm),
          if_neg (show ¬(kv.1 = q) from fun hc => h (hc ▸ hk))]
      exact ih
    · rw [if_neg hk]
      by_cases hq : kv.1 = q
      · rw [if_pos hq, if_pos hq]
      · rw [if_neg hq, if_neg hq]
        exact ih

theorem normStep_lookup (acc : Jdict) (k q : Chars) :
    jlookup (normStep acc k) q
      = if q = k then normLook (jlookup acc k) else jlookup acc q := by
  by_cases hq : q = k
  · subst hq
    rw [if_pos rfl]
    unfold normStep
    cases hv : jlookup acc q with
    | none => exact hv
    | some v =>
      cases v with
      | str s => exact jlookup_objSet_self _ (jlookup_some_contains hv)
      | null => exact hv
      | bool b => exact hv
      | num n => exact hv
      | float l => exact hv
      | arr xs => exact hv
      | obj es => exact hv
  · rw [if_neg hq]
    unfold normStep
    cases hv : jlookup acc k with
    | none => rfl
    | some v =>
      cases v with
      | str s => exact jlookup_objSet_other _ hq
      | null => rfl
      | bool b => rfl
      | num n => rfl
      | float l => rfl
      | arr xs => rfl
      | obj es => rfl

theorem normLook_some (v : Json) : normLook (some v) = some (normValue v) := by
  cases v <;> rfl

/-- Claim C3 amended (corrected): validation only checks presence of the six
keys; for a required key, a string value is normalized by the truthy-token
rule (`true`/`1`/`yes` case-insensitively to true, every other string to
false), booleans pass through, and any other value — null, numbers, arrays,
nested objects — is left unchanged, so the produced object need not be
strictly boolean-valued. -/
theorem claim3_amended (o d : Jdict) (k : Chars) (v : Json)
    (hval : validateNormalize (Json.obj o) = some d)
    (hk : k ∈ requiredKeys) (hv : jlookup o k = some v) :
    jlookup d k = some (normValue v) := by
  have hd : d = normalizeKeys o := by
    simp only [validateNormalize] at hval
    by_cases hall : (requiredKeys.all fun kk => containsKey o kk) = true
    · rw [if_pos hall] at hval
      simpa using hval.symm
    · rw [if_neg hall] at hval
      exact absurd hval (by simp)
  subst hd
  unfold normalizeKeys requiredKeys
  simp only [List.foldl_cons, List.foldl_nil]
  unfold requiredKeys at hk
  simp only [List.mem_cons, List.not_mem_nil, or_false] at hk
  rcases hk with rfl | rfl | rfl | rfl | rfl | rfl
  · rw [normStep_lookup, if_neg (by decide), normStep_lookup, if_neg (by decide),
        normStep_lookup, if_neg (by decide), normStep_lookup, if_neg (by decide),
        normStep_lookup, if_neg (by decide), normStep_lookup, if_pos rfl, hv,
        normLook_some]
  · rw [normStep_lookup, if_neg (by decide), normStep_lookup, if_neg (by decide),
        normStep_lookup, if_neg (by decide), normStep_lookup, if_neg (by decide),
        normStep_lookup, if_pos rfl, normStep_lookup, if_neg (by decide), hv,
        normLook_some]
  · rw [normStep_lookup, if_neg (by decide), normStep_lookup, if_neg (by decide),
        normStep_lookup, if_neg (by decide), normStep_lookup, if_pos rfl,
        normStep_lookup, if_neg (by decide), normStep_lookup, if_neg (by decide), hv,
        normLook_some]
  · rw [normStep_lookup, if_neg (by decide), normStep_lookup, if_neg (by decide),
        normStep_lookup, if_pos rfl, normStep_lookup, if_neg (by decide),
        normStep_lookup, if_neg (by decide), normStep_lookup, if_neg (by decide), hv,
        normLook_some]
  · rw [normStep_lookup, if_neg (by decide), normStep_lookup, if_pos rfl,
        normStep_lookup, if_neg (by decide), normStep_lookup, if_neg (by decide),
        normStep_lookup, if_neg (by decide), normStep_lookup, if_neg (by decide), hv,
        normLook_some]
  · rw [normStep_lookup, if_pos rfl, normStep_lookup, if_neg (by decide),
        normStep_lookup, if_neg (by decide), normStep_lookup, if_neg (by decide),
        normStep_lookup, if_neg (by decide), normStep_lookup, if_neg (by decide), hv,
        normLook_some]

/-- Witness for C3's amended statement: a truthy string value `YES` at
`excessive_loan` normalizes to the boolean true. -/
theorem claim3_witness :
    jlookup d3W ("excessive_loan".toList)
      = some (normValue (Json.str ("YES".toList))) :=
  claim3_amended o3W d3W ("excessive_loan".toList) (Json.str ("YES".toList))
    rfl (by decide) rfl

/-! ## Claim C4 -/

theorem begins_self_append (p r : Chars) : begins p (p ++ r) = true := by
  induction p with
  | nil => rfl
  | cons c cs ih => simp [begins, ih]

theorem containsSub_mid (pat a b : Chars) : containsSub pat (a ++ (pat ++ b)) = true := by
  induction a with
  | nil =>
    rw [List.nil_append]
    cases hp : pat ++ b with
    | nil =>
      rcases List.append_eq_nil.mp hp with ⟨h1, _⟩
      subst h1
      rfl
    | cons c cs =>
      unfold containsSub
      rw [← hp, begins_self_append]
      rfl
  | cons c a2 ih =>
    simp only [List.cons_append]
    unfold containsSub
    rw [ih]
    simp

theorem processFiles_err_head (env : Env) (f : UploadFile) (fs : List UploadFile)
    (e : HErr) (h : processOne env f = .error e) :
    processFiles env (f :: fs) = .error e := by
  unfold processFiles
  rw [h]

theorem analyze_house_err (env : Env) (f : UploadFile) (fs : List UploadFile)
    (e : HErr) (h : processFiles env (f :: fs) = .error e) :
    analyze_house env (f :: fs) = .error e := by
  unfold analyze_house
  rw [h]

/-- Counterexample to C4 as stated: a failing asset registration surfaces as
an HTTP 400 client error (not a server error), and a transport failure of the
inference call itself is answered with the Fallback Verdict instead of an
error. -/
theorem claim4_counterexample :
    analyze_house envReg [fImg]
        = .error ⟨400, ("이미지 처리 실패 (a.jpg): 400: 파일 업로드 실패: boom").toList⟩
      ∧ analyze_house envTrans [fImg] = .ok defaultVerdict :=
  ⟨rfl, rfl⟩

/-- Claim C4 amended (corrected): an asset-registration failure aborts the
request as a client error (HTTP 400) whose detail names the file, with no
fallback substitution; a transport-level failure raised by the inference call
itself is not surfaced at all — the pipeline substitutes the Fallback Verdict
and the HTTP call succeeds. -/
theorem claim4_amended :
    (∀ (env : Env) (f : UploadFile) (fn m : Chars),
      f.filename = some fn → fn ≠ [] → is_pdf_file fn = false →
      is_image_file fn = true → env.validImage f.bytes = true →
      env.register fn f.bytes = .error m →
      ∃ d, analyze_house env [f] = .error ⟨400, d⟩ ∧ containsSub fn d = true)
    ∧ (∀ (env : Env) (files : List UploadFile) (fcs : List FileContent)
        (s : Nat) (m : Chars),
      files ≠ [] → processFiles env files = .ok fcs →
      env.call (inputContent fcs) = .raises s m → s ≤ 90 →
      analyze_house env files = .ok defaultVerdict) := by
  constructor
  · intro env f fn m hfn hfne hpdf himg hval hreg
    have hfs : filenameStr f = fn := by
      unfold filenameStr
      rw [hfn]
      rfl
    have hup : upload_file_to_openai env f
        = .error ⟨400, "파일 업로드 실패: ".toList ++ m⟩ := by
      unfold upload_file_to_openai
      rw [hfs]
      simp [himg, hval, hreg]
    have hpo : processOne env f
        = .error ⟨400, "이미지 처리 실패 (".toList ++ fn ++ "): ".toList
            ++ errToStr ⟨400, "파일 업로드 실패: ".toList ++ m⟩⟩ := by
      simp only [processOne, hfn]
      rw [if_neg hfne, hpdf]
      rw [if_neg (by decide : ¬(false = true))]
      rw [himg, if_pos rfl, hup]
    exact ⟨_, analyze_house_err env f [] _ (processFiles_err_head env f [] _ hpo),
      by rw [List.append_assoc, List.append_assoc]; exact containsSub_mid fn _ _⟩
  · intro env files fcs s m hne hp hcall hs
    have hto : futureResult 90 (env.call (inputContent fcs)) = .upstreamFailure m := by
      rw [hcall]
      simp [futureResult, hs]
    rw [analyze_house_eq env files fcs hne hp,
        analyze_files_eq_default env.call fcs (Or.inr (Or.inl ⟨m, hto⟩)),
        analysisResponse_default]

/-- Witness for C4's amended statement at concrete environments. -/
theorem claim4_witness :
    (∃ d, analyze_house envReg2 [fImg2] = .error ⟨400, d⟩
        ∧ containsSub ("b.png".toList) d = true)
      ∧ analyze_house envTrans2 [fImg2] = .ok defaultVerdict :=
  ⟨claim4_amended.1 envReg2 fImg2 ("b.png".toList) ("netfail".toList)
      rfl (by decide) rfl rfl rfl rfl,
    claim4_amended.2 envTrans2 [fImg2] [.fileId ("b.png".toList) ("id2".toList)]
      5 ("reset".toList) (by decide) rfl rfl (by decide)⟩

/-! ## Claim C9 -/

theorem analysisResponse_none_of (d : Jdict) (k : Chars) (hk : k ∈ requiredKeys)
    (h : (jlookup d k).bind pydantic_bool = none) : analysisResponse d = none := by
  unfold requiredKeys at hk
  simp only [List.mem_cons, List.not_mem_nil, or_false] at hk
  unfold analysisResponse
  rcases hk with rfl | rfl | rfl | rfl | rfl | rfl <;> rw [h] <;>
    first
      | rfl
      | (split
         · simp_all
         · rfl)

/-- Counterexample to C9 as stated: with `owner_verification` bound to the
number 1 — neither a boolean nor a string — the extractor accepts the object
unchanged, yet the endpoint answers 200 with a Verdict (pydantic coerces the
integer 1) instead of a server error. -/
theorem claim9_counterexample :
    analyze_house env9 files9 = .ok ⟨false, false, false, true, false, true⟩
      ∧ (parse_openai_response t9).bind
          (fun r => jlookup r ("owner_verification".toList)) = some (Json.num 1)
      ∧ (∀ b, Json.num 1 ≠ Json.bool b) ∧ (∀ s, Json.num 1 ≠ Json.str s) :=
  ⟨rfl, rfl, fun _ h => Json.noConfusion h, fun _ h => Json.noConfusion h⟩

/-- Claim C9 amended (corrected): when a required key's value is null, the
extractor indeed accepts the object without normalizing it and the endpoint
answers with a server error (500) — but this does not extend to every
non-boolean non-string value: the integers 0 and 1 are coerced by the
response model and produce a 200 Verdict. -/
theorem claim9_amended (env : Env) (files : List UploadFile) (fcs : List FileContent)
    (t : Chars) (d : Jdict) (k : Chars)
    (hne : files ≠ []) (hp : processFiles env files = .ok fcs)
    (hcall : futureResult 90 (env.call (inputContent fcs)) = .success t)
    (hparse : parse_openai_response t = some d)
    (hk : k ∈ requiredKeys) (hnull : jlookup d k = some Json.null) :
    analyze_house env files
      = .error ⟨500, "분석 중 오류 발생: validation error".toList⟩ := by
  have hdn : d ≠ [] := by
    intro hnil
    rw [hnil] at hnull
    exact Option.noConfusion hnull
  have hres : analyze_files_with_openai env.call fcs = d := by
    obtain ⟨e, es, rfl⟩ := List.exists_cons_of_ne_nil hdn
    unfold analyze_files_with_openai
    rw [hcall]
    simp [hparse]
  rw [analyze_house_eq env files fcs hne hp, hres,
      analysisResponse_none_of d k hk (by rw [hnull]; rfl)]

/-- Witness for C9's amended statement: a null `owner_verification` makes the
endpoint answer 500. -/
theorem claim9_witness :
    analyze_house env9n files9n
      = .error ⟨500, "분석 중 오류 발생: validation error".toList⟩ :=
  claim9_amended env9n files9n fcs9n t9n d9W ("owner_verification".toList)
    (by decide) rfl rfl rfl (by decide) rfl

/-! ## Claim C6 -/

theorem uploadPages_ok {env : Env} {fn : Chars} {pages : List Chars} {i : Nat}
    {ids : List Chars} (h : uploadPages env fn pages i = .ok ids) :
    ids = expectedPageIds env fn pages i := by
  induction pages generalizing i ids with
  | nil =>
    unfold uploadPages at h
    simp only [Except.ok.injEq] at h
    rw [← h]
    rfl
  | cons p ps ih =>
    unfold uploadPages at h
    cases h1 : env.register (pageName fn (i + 1)) p <;> rw [h1] at h
    · exact absurd h (by simp)
    next id1 =>
      cases h2 : uploadPages env fn ps (i + 1) <;> rw [h2] at h
      · exact absurd h (by simp)
      next ids2 =>
        simp only [Except.ok.injEq] at h
        rw [← h]
        unfold expectedPageIds
        rw [← ih h2]
        unfold regOk
        rw [h1]

theorem contentRefs_processOne {env : Env} {f : UploadFile} {fc : FileContent}
    (h : processOne env f = .ok fc) : contentRefs fc = docVisualRefs env f := by
  cases hfn : f.filename with
  | none => simp [processOne, hfn] at h
  | some fn =>
    simp only [processOne, hfn] at h
    by_cases hfe : fn = []
    · rw [if_pos hfe] at h
      exact absurd h (by simp)
    · rw [if_neg hfe] at h
      have hfs : filenameStr f = fn := by
        unfold filenameStr
        rw [hfn]
        rfl
      unfold docVisualRefs
      rw [hfs]
      cases hpdf : is_pdf_file fn with
      | true =>
        rw [hpdf, if_pos rfl] at h
        rw [if_pos rfl]
        cases h1 : convert_pdf_to_file_ids env f <;> rw [h1] at h
        · exact absurd h (by simp)
        next ids =>
          simp only [Except.ok.injEq] at h
          rw [← h]
          unfold convert_pdf_to_file_ids at h1
          cases h2 : env.rasterize f.bytes 200 ("PNG".toList) <;> simp only [h2] at h1
          · exact absurd h1 (by simp)
          next pages =>
            show contentRefs (FileContent.pdfFileIds fn ids)
              = expectedPageIds env fn pages 0
            cases h3 : uploadPages env (filenameStr f) pages 0 <;> simp only [h3] at h1
            · exact absurd h1 (by simp)
            next ids2 =>
              simp only [Except.ok.injEq] at h1
              rw [hfs] at h3
              unfold contentRefs
              rw [← h1, uploadPages_ok h3]
      | false =>
        rw [hpdf, if_neg (by decide : ¬(false = true))] at h
        rw [if_neg (by decide : ¬(false = true))]
        cases himg : is_image_file fn with
        | true =>
          rw [himg, if_pos rfl] at h
          cases h1 : upload_file_to_openai env f <;> rw [h1] at h
          · exact absurd h (by simp)
          next i =>
            simp only [Except.ok.injEq] at h
            rw [← h]
            show [i] = [regOk env fn f.bytes]
            unfold upload_file_to_openai at h1
            rw [hfs] at h1
            cases hc : (is_image_file fn && !env.validImage f.bytes) <;> rw [hc] at h1
            · rw [if_neg (by decide : ¬(false = true))] at h1
              cases h4 : env.register fn f.bytes <;> simp only [h4] at h1
              · exact absurd h1 (by simp)
              next i2 =>
                simp only [Except.ok.injEq] at h1
                unfold regOk
                rw [h4, h1]
            · rw [if_pos rfl] at h1
              exact absurd h1 (by simp)
        | false =>
          rw [himg, if_neg (by decide : ¬(false = true))] at h
          exact absurd h (by simp)

/-- Claim C6: on the success path, the assembled inference request is the
fixed instruction item followed by exactly the concatenation, in upload
order, of each document's visual-asset references, with a pdf's pages in page
order — order is preserved through rasterization, registration and
assembly. -/
theorem claim6_order (env : Env) (files : List UploadFile) (fcs : List FileContent)
    (hp : processFiles env files = .ok fcs) :
    inputContent fcs
      = InputItem.inputText instructionText
          :: (files.flatMap (docVisualRefs env)).map InputItem.inputImage := by
  unfold inputContent
  congr 1
  induction files generalizing fcs with
  | nil =>
    unfold processFiles at hp
    simp only [Except.ok.injEq] at hp
    rw [← hp]
    rfl
  | cons f fs ih =>
    unfold processFiles at hp
    cases h1 : processOne env f <;> rw [h1] at hp
    · exact absurd hp (by simp)
    next fc =>
      cases h2 : processFiles env fs <;> rw [h2] at hp
      · exact absurd hp (by simp)
      next fcs2 =>
        simp only [Except.ok.injEq] at hp
        rw [← hp]
        simp only [List.flatMap_cons, List.map_append]
        rw [contentRefs_processOne h1, ih fcs2 h2]

/-- Witness for C6 at a concrete request: one two-page pdf then one image. -/
theorem claim6_witness :
    inputContent fcs6W
      = InputItem.inputText instructionText
          :: (files6W.flatMap (docVisualRefs env6W)).map InputItem.inputImage :=
  claim6_order env6W files6W fcs6W rfl

/-! ## Claim C7 -/

theorem processOne_error_400 {env : Env} {f : UploadFile} {e : HErr}
    (h : processOne env f = .error e) : e.status = 400 := by
  cases hfn : f.filename with
  | none =>
    simp only [processOne, hfn, Except.error.injEq] at h
    rw [← h]
  | some fn =>
    simp only [processOne, hfn] at h
    by_cases hfe : fn = []
    · rw [if_pos hfe] at h
      simp only [Except.error.injEq] at h
      rw [← h]
    · rw [if_neg hfe] at h
      cases hpdf : is_pdf_file fn with
      | true =>
        rw [hpdf, if_pos rfl] at h
        cases h1 : convert_pdf_to_file_ids env f <;> simp only [h1] at h
        · simp only [Except.error.injEq] at h
          rw [← h]
        · exact absurd h (by simp)
      | false =>
        rw [hpdf, if_neg (by decide : ¬(false = true))] at h
        cases himg : is_image_file fn with
        | true =>
          rw [himg, if_pos rfl] at h
          cases h1 : upload_file_to_openai env f <;> simp only [h1] at h
          · simp only [Except.error.injEq] at h
            rw [← h]
          · exact absurd h (by simp)
        | false =>
          rw [himg, if_neg (by decide : ¬(false = true))] at h
          simp only [Except.error.injEq] at h
          rw [← h]

theorem processOne_badFile (env : Env) (f : UploadFile) (hb : badFile f) :
    ∃ d, processOne env f = .error ⟨400, d⟩ := by
  rcases hb with hb | hb | ⟨fn, hb, hpdf, himg⟩
  · exact ⟨_, by simp only [processOne, hb]; rfl⟩
  · exact ⟨_, by simp only [processOne, hb]; rw [if_pos trivial]⟩
  · by_cases hfe : fn = []
    · exact ⟨_, by simp only [processOne, hb]; rw [if_pos hfe]⟩
    · exact ⟨_, by
        simp only [processOne, hb]
        rw [if_neg hfe, hpdf, if_neg (by decide : ¬(false = true)), himg,
          if_neg (by decide : ¬(false = true))]⟩

theorem processFiles_badFile (env : Env) (files : List UploadFile)
    (h : ∃ f ∈ files, badFile f) :
    ∃ e, processFiles env files = .error e ∧ e.status = 400 := by
  induction files with
  | nil =>
    obtain ⟨f0, hmem, _⟩ := h
    exact absurd hmem (by simp)
  | cons f fs ih =>
    obtain ⟨f0, hmem, hbad⟩ := h
    rcases List.mem_cons.mp hmem with rfl | hmem2
    · obtain ⟨d, hd⟩ := processOne_badFile env f0 hbad
      exact ⟨⟨400, d⟩, processFiles_err_head env f0 fs _ hd, rfl⟩
    · cases h1 : processOne env f with
      | error e => exact ⟨e, processFiles_err_head env f fs e h1, processOne_error_400 h1⟩
      | ok fc =>
        obtain ⟨e, he, hs⟩ := ih ⟨f0, hmem2, hbad⟩
        refine ⟨e, ?_, hs⟩
        unfold processFiles
        rw [h1, he]

/-- Claim C7: items are classified by extension as image
(jpg/jpeg/png/bmp/webp/gif) or pdf; any item with a missing filename or any
other extension makes the whole request abort with a 400 validation error —
no Verdict is produced. -/
theorem claim7_classification (env : Env) (files : List UploadFile)
    (h : ∃ f ∈ files, badFile f) :
    ∃ d, analyze_house env files = .error ⟨400, d⟩ := by
  obtain ⟨e, he, hs⟩ := processFiles_badFile env files h
  have hne : files ≠ [] := by
    rintro rfl
    obtain ⟨f0, hmem, _⟩ := h
    exact absurd hmem (by simp)
  obtain ⟨g, gs, rfl⟩ := List.exists_cons_of_ne_nil hne
  refine ⟨e.detail, ?_⟩
  have he2 : e = ⟨400, e.detail⟩ := by
    cases e
    simp_all
  rw [← he2]
  exact analyze_house_err env g gs e he

/-- Witness for C7: a `.docx` upload is rejected with a 400. -/
theorem claim7_witness : ∃ d, analyze_house env7W files7W = .error ⟨400, d⟩ :=
  claim7_classification env7W files7W
    ⟨f7W, by simp [files7W],
      Or.inr (Or.inr ⟨"report.docx".toList, rfl, rfl, rfl⟩)⟩

/-! ## Claim C8 -/

theorem expectedPageIds_length (env : Env) (fn : Chars) (pages : List Chars) (i : Nat) :
    (expectedPageIds env fn pages i).length = pages.length := by
  induction pages generalizing i with
  | nil => rfl
  | cons p ps ih =>
    unfold expectedPageIds
    simp only [List.length_cons, ih]

theorem uploadPages_total_ok (env : Env) (fn : Chars)
    (hreg : ∀ n b, ∃ i, env.register n b = .ok i) (pages : List Chars) (i : Nat) :
    uploadPages env fn pages i = .ok (expectedPageIds env fn pages i) := by
  induction pages generalizing i with
  | nil => rfl
  | cons p ps ih =>
    obtain ⟨id1, hid⟩ := hreg (pageName fn (i + 1)) p
    unfold uploadPages expectedPageIds
    rw [hid, ih (i + 1)]
    unfold regOk
    rw [hid]

/-- Claim C8: the Rasterizer is invoked at dpi 200 with PNG output; for a
valid pdf of N pages the pipeline registers exactly N page assets, in page
order, under names numbered from 1, and returns their N ids in order; a
corrupt pdf makes the request fail with a transform error whose surfaced
message contains the filename — no page is silently skipped. -/
theorem claim8_rasterizer (env : Env) (f : UploadFile) (fn : Chars)
    (hfn : f.filename = some fn) (hpdf : is_pdf_file fn = true) :
    (∀ pages, env.rasterize f.bytes 200 ("PNG".toList) = .ok pages →
      (∀ n b, ∃ i, env.register n b = .ok i) →
      convert_pdf_to_file_ids env f = .ok (expectedPageIds env fn pages 0)
        ∧ (expectedPageIds env fn pages 0).length = pages.length)
    ∧ (∀ m, env.rasterize f.bytes 200 ("PNG".toList) = .error m →
      ∃ d, analyze_house env [f] = .error ⟨400, d⟩ ∧ containsSub fn d = true) := by
  have hfs : filenameStr f = fn := by
    unfold filenameStr
    rw [hfn]
    rfl
  have hfe : fn ≠ [] := by
    rintro rfl
    rw [show is_pdf_file [] = false from rfl] at hpdf
    exact Bool.noConfusion hpdf
  constructor
  · intro pages hr hreg
    refine ⟨?_, expectedPageIds_length env fn pages 0⟩
    unfold convert_pdf_to_file_ids
    rw [hfs]
    simp only [hr, uploadPages_total_ok env fn hreg pages 0]
  · intro m hr
    have hcv : convert_pdf_to_file_ids env f
        = .error ⟨400, "PDF 이미지 변환 실패: ".toList ++ m⟩ := by
      unfold convert_pdf_to_file_ids
      rw [hr]
    have hpo : processOne env f
        = .error ⟨400, "PDF 처리 실패 (".toList ++ fn ++ "): ".toList
            ++ errToStr ⟨400, "PDF 이미지 변환 실패: ".toList ++ m⟩⟩ := by
      simp only [processOne, hfn]
      rw [if_neg hfe, hpdf, if_pos rfl, hcv]
    exact ⟨_, analyze_house_err env f [] _ (processFiles_err_head env f [] _ hpo),
      by rw [List.append_assoc, List.append_assoc]; exact containsSub_mid fn _ _⟩

/-- Witness for C8: a two-page pdf yields its two page ids in order, and a
corrupt pdf is rejected with a message naming `doc.pdf`. -/
theorem claim8_witness :
    (convert_pdf_to_file_ids env8a f8W
        = .ok (expectedPageIds env8a ("doc.pdf".toList) pages8W 0)
      ∧ (expectedPageIds env8a ("doc.pdf".toList) pages8W 0).length = pages8W.length)
    ∧ (∃ d, analyze_house env8b [f8W] = .error ⟨400, d⟩
        ∧ containsSub ("doc.pdf".toList) d = true) :=
  ⟨(claim8_rasterizer env8a f8W ("doc.pdf".toList) rfl rfl).1 pages8W rfl
      (fun n _ => ⟨'r' :: n, rfl⟩),
    (claim8_rasterizer env8b f8W ("doc.pdf".toList) rfl rfl).2 ("corrupt".toList) rfl⟩

/-! ## Claim C10 -/

theorem strat2Body_spec (rest : Chars) : ∀ acc r, strat2Body rest acc = some r →
    ∃ mid post, rest = mid ++ bClose :: post ∧ mid.all notBrace = true
      ∧ containsSub excKey (acc.reverse ++ mid) = true
      ∧ r = bOpen :: (acc.reverse ++ (mid ++ [bClose])) := by
  induction rest with
  | nil =>
    intro acc r h
    exact absurd h (by simp [strat2Body])
  | cons c rest2 ih =>
    intro acc r h
    unfold strat2Body at h
    by_cases h1 : c = bOpen
    · rw [if_pos h1] at h
      exact absurd h (by simp)
    · rw [if_neg h1] at h
      by_cases h2 : c = bClose
      · rw [if_pos h2] at h
        by_cases h3 : containsSub excKey acc.reverse = true
        · rw [if_pos h3] at h
          simp only [Option.some.injEq] at h
          refine ⟨[], rest2, by rw [h2]; rfl, rfl, ?_, ?_⟩
          · rw [List.append_nil]
            exact h3
          · rw [← h]
            rfl
        · rw [if_neg h3] at h
          exact absurd h (by simp)
      · rw [if_neg h2] at h
        obtain ⟨mid, post, hrest, hfree, hkey, hr⟩ := ih (c :: acc) r h
        refine ⟨c :: mid, post, by rw [hrest]; rfl, ?_, ?_, ?_⟩
        · simp only [List.all_cons, hfree, Bool.and_true]
          simp [notBrace, h1, h2]
        · rw [List.reverse_cons, List.append_assoc] at hkey
          simpa using hkey
        · rw [hr, List.reverse_cons, List.append_assoc]
          simp

/-- Structural characterization of a strategy-2 hit: what it matched is a
brace-delimited span with no inner braces containing the quoted key. -/
theorem strat2Here_spec (s : Chars) (r : Chars) (h : strat2Here s = some r) :
    ∃ mid post, s = bOpen :: (mid ++ bClose :: post) ∧ mid.all notBrace = true
      ∧ containsSub excKey mid = true ∧ r = bOpen :: (mid ++ [bClose]) := by
  cases s with
  | nil => exact absurd h (by simp [strat2Here])
  | cons c rest =>
    simp only [strat2Here] at h
    by_cases h1 : c = bOpen
    · rw [if_pos h1] at h
      obtain ⟨mid, post, hrest, hfree, hkey, hr⟩ := strat2Body_spec rest [] r h
      subst h1
      exact ⟨mid, post, by rw [hrest], hfree, by simpa using hkey, by simpa using hr⟩
    · rw [if_neg h1] at h
      exact absurd h (by simp)

theorem strat2Search_spec (t : Chars) (r : Chars) (h : strat2Search t = some r) :
    ∃ pre mid post, t = pre ++ (bOpen :: (mid ++ bClose :: post))
      ∧ mid.all notBrace = true ∧ containsSub excKey mid = true := by
  induction t with
  | nil => exact absurd h (by simp [strat2Search])
  | cons c cs ih =>
    unfold strat2Search at h
    cases hh : strat2Here (c :: cs) with
    | some r2 =>
      obtain ⟨mid, post, hs, hfree, hkey, _⟩ := strat2Here_spec (c :: cs) r2 hh
      exact ⟨[], mid, post, by rw [← hs]; rfl, hfree, hkey⟩
    | none =>
      rw [hh] at h
      obtain ⟨pre, mid, post, hs, hfree, hkey⟩ := ih h
      exact ⟨c :: pre, mid, post, by rw [List.cons_append, ← hs], hfree, hkey⟩

/-- Claim C10: strategy 2 only ever matches a brace-delimited object with no
nested braces (that contains the quoted key `excessive_loan`); consequently,
on text without a fenced json block in which no brace-free brace-delimited
span contains the key — e.g. when the only such object has a nested object —
strategy 2 finds nothing and the extractor falls through to parsing the
entire stripped text. -/
theorem claim10_nested (t : Chars) :
    (∀ r, strat2Search t = some r →
      ∃ pre mid post, t = pre ++ (bOpen :: (mid ++ bClose :: post))
        ∧ mid.all notBrace = true ∧ containsSub excKey mid = true)
    ∧ (fencedSearch t = none → strat2Search t = none →
      parse_openai_response t = (jsonLoads (pyStrip t)).bind validateNormalize) := by
  constructor
  · intro r h
    exact strat2Search_spec t r h
  · intro h1 h2
    unfold parse_openai_response codeCandidate
    rw [h1, h2]

/-- Witness for C10: a flat inline object is characterized by the structural
description, and on `t10` — whose only key-carrying object has a nested
object — the extractor falls through to the whole stripped text. -/
theorem claim10_witness :
    (∃ pre mid post, t10m = pre ++ (bOpen :: (mid ++ bClose :: post))
      ∧ mid.all notBrace = true ∧ containsSub excKey mid = true)
    ∧ parse_openai_response t10 = (jsonLoads (pyStrip t10)).bind validateNormalize :=
  ⟨(claim10_nested t10m).1 ("\x7b\"excessive_loan\": 1\x7d".toList) rfl,
    (claim10_nested t10).2 rfl rfl⟩
